import Mathlib

/-!
Verification of the road-generation primitive geometry system
(`commonroad/generator/primitive.py`) against its natural-language
specification.  The Python source is shallowly embedded: 2D points are
pairs of reals, the schema objects (lanelets, boundaries, obstacles,
signs, markings, junction polygons) are structures, fallible operations
return `Except`, and Python object identity of lanelets is modelled by a
`ref : Nat` field assigned in creation order.
-/

open Real
open scoped Classical

/-- A 2D point / vector, as produced by the generator. -/
abbrev Pt := ℝ × ℝ

/-- Component-wise addition of points (numpy vector addition). -/
def padd (p q : Pt) : Pt := (p.1 + q.1, p.2 + q.2)

/-- Component-wise subtraction of points (numpy vector subtraction). -/
def psub (p q : Pt) : Pt := (p.1 - q.1, p.2 - q.2)

/-- Scalar multiplication of a point (numpy scalar broadcasting). -/
def psmul (c : ℝ) (p : Pt) : Pt := (c * p.1, c * p.2)

/-- Dot product (np.dot on 2-vectors). -/
def pdot (p q : Pt) : ℝ := p.1 * q.1 + p.2 * q.2

/-- Euclidean norm of a 2-vector (np.linalg.norm). -/
noncomputable def norm2 (p : Pt) : ℝ := Real.sqrt (p.1 ^ 2 + p.2 ^ 2)

/-- Normalize a vector to unit length (`v / np.linalg.norm(v)`). -/
noncomputable def pnormalize (p : Pt) : Pt := (p.1 / norm2 p, p.2 / norm2 p)

/-- Embeds `math.atan2 y x`, modelled by the complex argument of `x + y*i`. -/
noncomputable def atan2 (y x : ℝ) : ℝ := Complex.arg ⟨x, y⟩

/-- Embeds `is_left(a, b, c)` from the source: the 2D cross product of `b - a`
and `c - a` is positive (c lies to the left of the ray a→b). -/
def is_left (a b c : Pt) : Prop :=
  0 < (b.1 - a.1) * (c.2 - a.2) - (b.2 - a.2) * (c.1 - a.1)

/-- Embeds `circle_from_points` from the source: the circle through three
points, solved from the two chord-bisector directions.  The 2×2 system
has rank 2 exactly when its determinant is nonzero; otherwise the
source returns `None`.  `result[0]` is obtained by Cramer's rule, which
is what `np.linalg.solve` computes on a nonsingular 2×2 system. -/
noncomputable def circle_from_points (x1 y1 x2 y2 x3 y3 : ℝ) :
    Option (Pt × ℝ) :=
  let s1 : Pt := (y2 - y1, -(x2 - x1))
  let s2 : Pt := (y3 - y2, -(x3 - x2))
  let mid1 : Pt := (0.5 * (x1 + x2), 0.5 * (y1 + y2))
  let mid2 : Pt := (0.5 * (x2 + x3), 0.5 * (y2 + y3))
  let det := s1.1 * s2.2 - s2.1 * s1.2
  if det ≠ 0 then
    let b : Pt := psub mid2 mid1
    let c1 := (b.1 * s2.2 - s2.1 * b.2) / det
    let mid : Pt := padd mid1 (psmul c1 s1)
    some (mid, norm2 (psub mid (x1, y1)))
  else
    none

/-- Embeds `convert_line_marking` from the source: `None` and `"missing"`
become no marking, everything else is kept. -/
def convert_line_marking (marking : Option String) : Option String :=
  match marking with
  | none => none
  | some s => if s = "missing" then none else some s

/-- Python exception kinds that can escape the operations under
verification. -/
inductive PyErr
  | missingPoints
  | indexError
  | typeError
  | valueError
deriving DecidableEq, Repr

/-- A pose: position, heading (radians) and signed curvature. -/
structure Pose where
  pos : Pt
  heading : ℝ
  curvature : ℝ

/-- Embeds `schema.boundary`: an ordered polyline plus an optional line
marking. -/
structure Boundary where
  point : List Pt
  lineMarking : Option String
deriving Inhabited

/-- Embeds `schema.lineMarkingAttributes` (stop-line stroke data). -/
structure LineAttrs where
  lineWidth : ℝ
  segmentLength : ℝ
  segmentGap : ℝ

/-- Embeds `schema.lanelet`.  The `ref` field models Python object identity:
each lanelet object created during an export receives a distinct
reference number in creation order, and lanelet pairs refer to these
numbers. -/
structure Lanelet where
  ref : ℕ
  leftBoundary : Boundary
  rightBoundary : Boundary
  isStart : Bool
  typeTag : Option String
  stopLine : Option String
  stopLineAttrs : Option LineAttrs

/-- Embeds `schema.rectangle`. -/
structure Rect where
  length : ℝ
  width : ℝ
  orientation : ℝ
  centerPoint : Pt

/-- Embeds `schema.obstacle` (role, type, shape = list of rectangles). -/
structure Obstacle where
  role : String
  type : String
  rects : List Rect

/-- Embeds `schema.trafficSign`. -/
structure TrafficSignObj where
  type : String
  orientation : ℝ
  centerPoint : Pt

/-- Embeds `schema.ramp`. -/
structure RampObj where
  orientation : ℝ
  centerPoint : Pt

/-- Embeds `schema.roadMarking`. -/
structure RoadMarkingObj where
  type : String
  orientation : ℝ
  centerPoint : Pt

/-- A scene object in an export bundle (the closed variant set the
transform step of the composite primitive dispatches on). -/
inductive SceneObject
  | lanelet (l : Lanelet)
  | obstacle (o : Obstacle)
  | trafficSign (s : TrafficSignObj)
  | ramp (r : RampObj)
  | junction (points : List Pt)
  | roadMarking (m : RoadMarkingObj)

/-- The `Export` bundle: flat scene-object list plus lanelet pairs.
Pairs reference lanelets through their identity `ref` numbers. -/
structure ExportBundle where
  objects : List SceneObject
  laneletPairs : List (ℕ × ℕ)

/-! ### Generic pose derivation (`Primitive.get_beginning` / `get_ending`)

The source indexes `points[0] / [1] / [2]` (resp. `[-1] / [-2] / [-3]`);
an out-of-range access raises `IndexError`.  When `circle_from_points`
returns `None`, the tuple unpacking `circle_mid, radius = None` raises
`TypeError`. -/

/-- Generic `Primitive.get_beginning` with Python's failure modes. -/
noncomputable def getBeginningE (points : List Pt) : Except PyErr Pose :=
  match points with
  | p0 :: p1 :: p2 :: _ =>
    let dir := psub p0 p1
    match circle_from_points p0.1 p0.2 p1.1 p1.2 p2.1 p2.2 with
    | none => .error .typeError
    | some (mid, radius) =>
      let r := if is_left p1 p0 mid then radius else -radius
      .ok ⟨p0, atan2 dir.2 dir.1, 1 / r⟩
  | _ => .error .indexError

/-- Generic `Primitive.get_ending` (same derivation from the last three
samples, via negative indexing). -/
noncomputable def getEndingE (points : List Pt) : Except PyErr Pose :=
  match points.reverse with
  | p0 :: p1 :: p2 :: _ =>
    let dir := psub p0 p1
    match circle_from_points p0.1 p0.2 p1.1 p1.2 p2.1 p2.2 with
    | none => .error .typeError
    | some (mid, radius) =>
      let r := if is_left p1 p0 mid then radius else -radius
      .ok ⟨p0, atan2 dir.2 dir.1, 1 / r⟩
  | _ => .error .indexError

/-- Embeds `Primitive.get_bounding_box`: raises `MissingPointsException` on an
empty sample sequence.  The polygon itself is produced by the external
shapely library (out of scope); its construction is represented here by
the centerline it buffers. -/
def getBoundingBoxE (points : List Pt) : Except PyErr (List Pt) :=
  if points.length = 0 then .error .missingPoints else .ok points

/-! ### Generic boundary export (`Primitive.export`) -/

/-- The left-hand perpendicular offset for one centerline segment,
scaled to the road half-width (`ortho_left` in the source). -/
noncomputable def orthoLeftW (w : ℝ) (p q : Pt) : Pt :=
  let o : Pt := (-(q.2 - p.2), q.1 - p.1)
  (o.1 / norm2 o * w, o.2 / norm2 o * w)

/-- The per-sample (left, right) offset points of the export loop.  The
carried argument `o` models the Python variable `ortho_left`, which the
last sample reuses from the previous iteration. -/
noncomputable def offsetLoop (w : ℝ) (o : Pt) : List Pt → List (Pt × Pt)
  | [] => []
  | [p] => [(padd p o, psub p o)]
  | p :: q :: rest =>
    let o2 := orthoLeftW w p q
    (padd p o2, psub p o2) :: offsetLoop w o2 (q :: rest)

/-- The offset points for a whole centerline.  On a single-point list
the Python loop reads the never-assigned `ortho_left` and raises
`NameError`, modelled as `none`; the initial carried value for longer
lists is never read. -/
noncomputable def genericOffsets (w : ℝ) : List Pt → Option (List (Pt × Pt))
  | [] => some []
  | [_] => none
  | p :: q :: rest => some (offsetLoop w ((0 : ℝ), (0 : ℝ)) (p :: q :: rest))

/-- Assembly of the generic export bundle from the centerline and the
offset points: lanelet 1 (driving direction) keeps the centerline as
left boundary and the right offsets as right boundary; lanelet 2
(reverse direction) gets the centerline and the left offsets, both
reversed to match driving direction. -/
def mkGenericExport (points : List Pt) (leftLine middleLine rightLine : Option String)
    (isStart : Bool) (offs : List (Pt × Pt)) : ExportBundle :=
  let lanelet1 : Lanelet :=
    ⟨0, ⟨points, convert_line_marking middleLine⟩,
        ⟨offs.map Prod.snd, convert_line_marking rightLine⟩,
        isStart, none, none, none⟩
  let lanelet2 : Lanelet :=
    ⟨1, ⟨points.reverse, none⟩,
        ⟨(offs.map Prod.fst).reverse, convert_line_marking leftLine⟩,
        false, none, none, none⟩
  ⟨[.lanelet lanelet1, .lanelet lanelet2], [(0, 1)]⟩

/-- Embeds `Primitive.export`: generic two-lanelet boundary export. -/
noncomputable def genericExport (points : List Pt)
    (leftLine middleLine rightLine : Option String) (isStart : Bool)
    (w : ℝ) : Option ExportBundle :=
  (genericOffsets w points).map
    (mkGenericExport points leftLine middleLine rightLine isStart)

/-! ### StraightLine -/

/-- Embeds `StraightLine` construction parameters, with the source's
defaults (`leftLine="solid"`, `middleLine="dashed"`,
`rightLine="solid"`, `isStart=False`). -/
structure StraightLineP where
  length : ℝ
  leftLine : String
  middleLine : String
  rightLine : String
  isStart : Bool

/-- Embeds `StraightLine.get_points`. -/
def StraightLineP.getPoints (s : StraightLineP) : List Pt :=
  [(0, 0), (s.length, 0)]

/-- Embeds `StraightLine.get_beginning`. -/
noncomputable def StraightLineP.getBeginning (_s : StraightLineP) : Pose :=
  ⟨(0, 0), Real.pi, 0⟩

/-- Embeds `StraightLine.get_ending`. -/
def StraightLineP.getEnding (s : StraightLineP) : Pose :=
  ⟨(s.length, 0), 0, 0⟩

/-- Embeds `StraightLine` inherits the generic export. -/
noncomputable def StraightLineP.export (s : StraightLineP) (w : ℝ) :
    Option ExportBundle :=
  genericExport s.getPoints (some s.leftLine) (some s.middleLine)
    (some s.rightLine) s.isStart w

/-! ### Helper evaluation lemmas -/

theorem norm2_pair_zero_right (a : ℝ) : norm2 (a, 0) = |a| := by
  simp [norm2, Real.sqrt_sq_eq_abs]

theorem norm2_pair_zero_left (a : ℝ) : norm2 (0, a) = |a| := by
  simp [norm2, Real.sqrt_sq_eq_abs]

/-- The fully evaluated export bundle of `StraightLine(length=5)` with
default line styles at road half-width 1 (shared by several claims). -/
def straight5Bundle : ExportBundle :=
  ⟨[.lanelet ⟨0, ⟨[(0, 0), (5, 0)], some "dashed"⟩,
                 ⟨[(0, -1), (5, -1)], some "solid"⟩, false, none, none, none⟩,
    .lanelet ⟨1, ⟨[(5, 0), (0, 0)], none⟩,
                 ⟨[(5, 1), (0, 1)], some "solid"⟩, false, none, none, none⟩],
   [(0, 1)]⟩

theorem straight5_offsets :
    genericOffsets 1 [((0 : ℝ), (0 : ℝ)), (5, 0)] =
      some [(((0 : ℝ), (1 : ℝ)), ((0 : ℝ), (-1 : ℝ))), ((5, 1), (5, -1))] := by
  have h : orthoLeftW 1 ((0 : ℝ), (0 : ℝ)) (5, 0) = (0, 1) := by
    simp only [orthoLeftW]
    norm_num [norm2_pair_zero_left]
  simp only [genericOffsets, offsetLoop, h]
  norm_num [padd, psub]

theorem straight5_export :
    StraightLineP.export ⟨5, "solid", "dashed", "solid", false⟩ 1 =
      some straight5Bundle := by
  simp only [StraightLineP.export, genericExport, StraightLineP.getPoints,
    straight5_offsets, Option.map_some]
  simp [mkGenericExport, convert_line_marking, straight5Bundle]

/-- C1: exporting `StraightLine(length=5)` with default line styles and
road half-width 1 yields exactly one lanelet pair; the right lanelet has
left boundary `[(0,0),(5,0)]` and right boundary `[(0,-1),(5,-1)]`, and
the reverse-direction lanelet has the centerline as left boundary and
the `+1`-in-`y` offset curve `[(0,1),(5,1)]` as right boundary, both
point sequences reversed to match driving direction. -/
theorem C1_straight_line_end_to_end_export :
    StraightLineP.export ⟨5, "solid", "dashed", "solid", false⟩ 1 =
      some ⟨[.lanelet ⟨0, ⟨[(0, 0), (5, 0)], some "dashed"⟩,
                          ⟨[(0, -1), (5, -1)], some "solid"⟩,
                          false, none, none, none⟩,
             .lanelet ⟨1, ⟨[((0 : ℝ), (0 : ℝ)), (5, 0)].reverse, none⟩,
                          ⟨[((0 : ℝ), (1 : ℝ)), (5, 1)].reverse, some "solid"⟩,
                          false, none, none, none⟩],
            [(0, 1)]⟩ := by
  rw [straight5_export]
  simp [straight5Bundle]

/-! ### Circular arcs

`LeftCircularArc` / `RightCircularArc` pose queries (the angle parameter
is already in radians, as converted in the constructors). -/

/-- Embeds `LeftCircularArc.get_beginning`. -/
noncomputable def LeftCircularArc.getBeginning (radius _angle : ℝ) : Pose :=
  ⟨(0, 0), Real.pi, 1 / radius⟩

/-- Embeds `LeftCircularArc.get_ending`. -/
noncomputable def LeftCircularArc.getEnding (radius angle : ℝ) : Pose :=
  ⟨(Real.cos (angle - Real.pi / 2) * radius,
    radius + Real.sin (angle - Real.pi / 2) * radius),
   angle, -1 / radius⟩

/-- Embeds `RightCircularArc.get_beginning`. -/
noncomputable def RightCircularArc.getBeginning (radius _angle : ℝ) : Pose :=
  ⟨(0, 0), Real.pi, -1 / radius⟩

/-- Embeds `RightCircularArc.get_ending`. -/
noncomputable def RightCircularArc.getEnding (radius angle : ℝ) : Pose :=
  ⟨(Real.cos (Real.pi / 2 - angle) * radius,
    -radius + Real.sin (Real.pi / 2 - angle) * radius),
   -angle, 1 / radius⟩

/-- C2 counterexample: for the right circular arc with radius 1 and
angle 1 the start curvature is negative while the end curvature is
positive, so the end curvature does not have the same sign as the start
curvature — the claimed no-sign-flip convention for right arcs is
false. -/
theorem C2_right_arc_sign_counterexample :
    (RightCircularArc.getBeginning 1 1).curvature < 0 ∧
      0 < (RightCircularArc.getEnding 1 1).curvature := by
  constructor <;> norm_num [RightCircularArc.getBeginning,
    RightCircularArc.getEnding]

/-- C2 (amended): for every radius `r > 0` and angle, both arc
directions flip the curvature sign between start and end: a left arc
starts at `+1/r` and ends at `-1/r`, and a right arc starts at `-1/r`
and ends at `+1/r` (start magnitude `1/r` in both cases). -/
theorem C2_arc_curvature_sign_convention (r θ : ℝ) (h : 0 < r) :
    (LeftCircularArc.getBeginning r θ).curvature = 1 / r ∧
    (LeftCircularArc.getEnding r θ).curvature = -(1 / r) ∧
    (RightCircularArc.getBeginning r θ).curvature = -(1 / r) ∧
    (RightCircularArc.getEnding r θ).curvature = 1 / r ∧
    0 < (LeftCircularArc.getBeginning r θ).curvature ∧
    (LeftCircularArc.getEnding r θ).curvature < 0 ∧
    (RightCircularArc.getBeginning r θ).curvature < 0 ∧
    0 < (RightCircularArc.getEnding r θ).curvature := by
  have hr : 0 < 1 / r := by positivity
  have hend : (LeftCircularArc.getEnding r θ).curvature = -(1 / r) := by
    simp [LeftCircularArc.getEnding, neg_div]
  have hbeg : (RightCircularArc.getBeginning r θ).curvature = -(1 / r) := by
    simp [RightCircularArc.getBeginning, neg_div]
  refine ⟨rfl, hend, hbeg, rfl, hr, ?_, ?_, hr⟩
  · rw [hend]; exact neg_lt_zero.mpr hr
  · rw [hbeg]; exact neg_lt_zero.mpr hr

/-- C2 witness: the amended sign convention at radius 1, angle 1. -/
theorem C2_arc_curvature_sign_convention_witness :
    (LeftCircularArc.getBeginning 1 1).curvature = 1 / 1 ∧
    (LeftCircularArc.getEnding 1 1).curvature = -(1 / 1) ∧
    (RightCircularArc.getBeginning 1 1).curvature = -(1 / 1) ∧
    (RightCircularArc.getEnding 1 1).curvature = 1 / 1 :=
  have h := C2_arc_curvature_sign_convention 1 1 (by norm_num)
  ⟨h.1, h.2.1, h.2.2.1, h.2.2.2.1⟩

/-! ### Composite / Transform primitive (`TransrotPrimitive`)

`_get_matrix` composes a translation to `translation + child_begin`
with a rotation by `angle`, after first translating the child's start
position to the origin; applied to a point this is
`R(angle)·(p - b) + t + b` where `b` is the child's beginning
position. -/

/-- Embeds `TransrotPrimitive._transform_point` (the evaluated matrix
product). -/
noncomputable def transformPoint (angle : ℝ) (t b p : Pt) : Pt :=
  (Real.cos angle * (p.1 - b.1) - Real.sin angle * (p.2 - b.2) + t.1 + b.1,
   Real.sin angle * (p.1 - b.1) + Real.cos angle * (p.2 - b.2) + t.2 + b.2)

/-- Embeds `TransrotPrimitive.get_points`. -/
noncomputable def transrotGetPoints (angle : ℝ) (t b : Pt)
    (childPoints : List Pt) : List Pt :=
  childPoints.map (transformPoint angle t b)

/-- Embeds `TransrotPrimitive.get_beginning`: transformed position, heading
incremented by the angle, curvature unchanged. -/
noncomputable def transrotGetBeginning (angle : ℝ) (t : Pt)
    (childBegin : Pose) : Pose :=
  ⟨transformPoint angle t childBegin.pos childBegin.pos,
   childBegin.heading + angle, childBegin.curvature⟩

/-- Embeds `TransrotPrimitive.get_ending` (the matrix is still anchored at the
child's beginning position `b`). -/
noncomputable def transrotGetEnding (angle : ℝ) (t b : Pt)
    (childEnd : Pose) : Pose :=
  ⟨transformPoint angle t b childEnd.pos, childEnd.heading + angle,
   childEnd.curvature⟩

/-- Transform of one boundary (point-wise). -/
noncomputable def transformBoundary (angle : ℝ) (t b : Pt) (bd : Boundary) :
    Boundary :=
  ⟨bd.point.map (transformPoint angle t b), bd.lineMarking⟩

/-- The per-object transform of `TransrotPrimitive.export`: lanelet and
junction points are mapped; sign, ramp and road-marking orientations are
incremented by the angle; obstacle rectangle orientations are
DECREMENTED by the angle (`rect.orientation -= self._angle` in the
source). -/
noncomputable def transformObj (angle : ℝ) (t b : Pt) :
    SceneObject → SceneObject
  | .lanelet l =>
    .lanelet ⟨l.ref, transformBoundary angle t b l.leftBoundary,
      transformBoundary angle t b l.rightBoundary, l.isStart, l.typeTag,
      l.stopLine, l.stopLineAttrs⟩
  | .obstacle o =>
    .obstacle ⟨o.role, o.type,
      o.rects.map fun r =>
        ⟨r.length, r.width, r.orientation - angle,
         transformPoint angle t b r.centerPoint⟩⟩
  | .trafficSign s =>
    .trafficSign ⟨s.type, s.orientation + angle,
      transformPoint angle t b s.centerPoint⟩
  | .ramp r =>
    .ramp ⟨r.orientation + angle, transformPoint angle t b r.centerPoint⟩
  | .junction ps => .junction (ps.map (transformPoint angle t b))
  | .roadMarking m =>
    .roadMarking ⟨m.type, m.orientation + angle,
      transformPoint angle t b m.centerPoint⟩

/-- Embeds `TransrotPrimitive.export`: the child's bundle with every scene
object transformed in place. -/
noncomputable def transrotExport (angle : ℝ) (t b : Pt)
    (e : ExportBundle) : ExportBundle :=
  ⟨e.objects.map (transformObj angle t b), e.laneletPairs⟩

theorem transformPoint_id (b p : Pt) : transformPoint 0 (0 : Pt) b p = p := by
  simp [transformPoint]

theorem transformPoint_id_fun (b : Pt) : transformPoint 0 (0 : Pt) b = id :=
  funext fun p => transformPoint_id b p

theorem transformObj_id (b : Pt) (o : SceneObject) :
    transformObj 0 (0 : Pt) b o = o := by
  cases o with
  | lanelet l =>
    simp [transformObj, transformBoundary, transformPoint_id_fun]
  | obstacle ob =>
    simp only [transformObj, transformPoint_id, sub_zero, SceneObject.obstacle.injEq]
    refine congrArg _ (List.map_id'' (fun r => ?_) ob.rects)
    cases r
    rfl
  | trafficSign s => simp [transformObj, transformPoint_id]
  | ramp r => simp [transformObj, transformPoint_id]
  | junction ps => simp [transformObj, transformPoint_id_fun]
  | roadMarking m => simp [transformObj, transformPoint_id]

/-- C9: wrapping a child in a Composite/Transform primitive with zero
translation and zero rotation leaves its sampled points, start pose, end
pose and exported bundle numerically identical (identity transform
law). -/
theorem C9_identity_transform_law (b : Pt) (childPoints : List Pt)
    (childBegin childEnd : Pose) (e : ExportBundle) :
    transrotGetPoints 0 (0, 0) b childPoints = childPoints ∧
    transrotGetBeginning 0 (0, 0) childBegin = childBegin ∧
    transrotGetEnding 0 (0, 0) b childEnd = childEnd ∧
    transrotExport 0 (0, 0) b e = e := by
  refine ⟨?_, ?_, ?_, ?_⟩
  · simp [transrotGetPoints, transformPoint_id_fun]
  · simp [transrotGetBeginning, transformPoint_id]
  · simp [transrotGetEnding, transformPoint_id]
  · cases e with
    | mk objs pairs =>
      simp only [transrotExport, ExportBundle.mk.injEq, and_true]
      exact List.map_id'' (fun o => by
        simpa using transformObj_id b o) objs

/-! ### StraightLineObstacle (decorated straight with a parked-vehicle
rectangle), used to exhibit the obstacle-orientation behaviour of the
composite transform. -/

/-- Embeds `StraightLineObstacle.export`: the inherited straight-line export
plus a static parked-vehicle rectangle of orientation 0 centred at
`(length/2, y)` where `y` is the lateral position adjusted by the
anchor. -/
noncomputable def straightLineObstacleExport (length width position : ℝ)
    (anchor : String) (w : ℝ) : Option ExportBundle :=
  let y := position * w + (if anchor = "left" then -(width / 2)
    else if anchor = "right" then width / 2 else 0)
  let obstacle : Obstacle :=
    ⟨"static", "parkedVehicle", [⟨length, width, 0, (length / 2, y)⟩]⟩
  (StraightLineP.export ⟨length, "solid", "dashed", "solid", false⟩ w).map
    fun e => ⟨e.objects ++ [.obstacle obstacle], e.laneletPairs⟩

/-- All obstacle rectangle orientations occurring in a bundle, in
order. -/
def obstacleOrientations (e : ExportBundle) : List ℝ :=
  (e.objects.map fun o =>
    match o with
    | .obstacle ob => ob.rects.map Rect.orientation
    | _ => []).flatten

/-- C4 counterexample: transforming the export of
`StraightLineObstacle(length=5, width=2, position=0)` by the rotation
angle 1 yields an obstacle rectangle orientation of `0 - 1`, not the
claimed `0 + 1`: the source decrements obstacle orientations by the
rotation angle while incrementing all other orientation fields. -/
theorem C4_obstacle_orientation_counterexample :
    (straightLineObstacleExport 5 2 0 "center" 1).map
        (fun e => obstacleOrientations (transrotExport 1 (0, 0) (0, 0) e)) =
      some [0 - 1] ∧ ((0 : ℝ) - 1) ≠ 0 + 1 := by
  refine ⟨?_, by norm_num⟩
  rw [show straightLineObstacleExport 5 2 0 "center" 1 =
      some ⟨straight5Bundle.objects ++
        [.obstacle ⟨"static", "parkedVehicle", [⟨5, 2, 0, (5 / 2, 0 * 1 + 0)⟩]⟩],
        straight5Bundle.laneletPairs⟩ by
    simp [straightLineObstacleExport, straight5_export]]
  simp [obstacleOrientations, transrotExport, transformObj, straight5Bundle]

/-- C4 (amended): the composite/transform export maps every scene
object by the per-variant transform built from the same rigid map
`transformPoint` as the pose queries; lanelet and junction points and
every centre point are mapped by that rigid map; traffic-sign, ramp and
road-marking orientations are incremented by the rotation angle, while
obstacle rectangle orientations are DECREMENTED by it; pose headings are
incremented by the angle and curvature is unchanged.  `transformPoint`
is a genuine rigid motion: it preserves squared distances and rotates
direction vectors by exactly the rotation angle. -/
theorem C4_transrot_export_consistency (a : ℝ) (t b : Pt) :
    (∀ e : ExportBundle,
      (transrotExport a t b e).objects = e.objects.map (transformObj a t b) ∧
      (transrotExport a t b e).laneletPairs = e.laneletPairs) ∧
    (∀ s : TrafficSignObj, transformObj a t b (.trafficSign s) =
      .trafficSign ⟨s.type, s.orientation + a, transformPoint a t b s.centerPoint⟩) ∧
    (∀ r : RampObj, transformObj a t b (.ramp r) =
      .ramp ⟨r.orientation + a, transformPoint a t b r.centerPoint⟩) ∧
    (∀ m : RoadMarkingObj, transformObj a t b (.roadMarking m) =
      .roadMarking ⟨m.type, m.orientation + a, transformPoint a t b m.centerPoint⟩) ∧
    (∀ o : Obstacle, transformObj a t b (.obstacle o) =
      .obstacle ⟨o.role, o.type, o.rects.map fun r =>
        ⟨r.length, r.width, r.orientation - a, transformPoint a t b r.centerPoint⟩⟩) ∧
    (∀ l : Lanelet, transformObj a t b (.lanelet l) =
      .lanelet ⟨l.ref,
        ⟨l.leftBoundary.point.map (transformPoint a t b), l.leftBoundary.lineMarking⟩,
        ⟨l.rightBoundary.point.map (transformPoint a t b), l.rightBoundary.lineMarking⟩,
        l.isStart, l.typeTag, l.stopLine, l.stopLineAttrs⟩) ∧
    (∀ ps : List Pt, transformObj a t b (.junction ps) =
      .junction (ps.map (transformPoint a t b))) ∧
    (∀ p : Pose, transrotGetBeginning a t p =
      ⟨transformPoint a t p.pos p.pos, p.heading + a, p.curvature⟩) ∧
    (∀ p : Pose, transrotGetEnding a t b p =
      ⟨transformPoint a t b p.pos, p.heading + a, p.curvature⟩) ∧
    (∀ p q : Pt,
      ((transformPoint a t b p).1 - (transformPoint a t b q).1) ^ 2 +
        ((transformPoint a t b p).2 - (transformPoint a t b q).2) ^ 2 =
      (p.1 - q.1) ^ 2 + (p.2 - q.2) ^ 2) ∧
    (∀ (p : Pt) (h : ℝ),
      psub (transformPoint a t b (padd p (Real.cos h, Real.sin h)))
          (transformPoint a t b p) =
        (Real.cos (h + a), Real.sin (h + a))) := by
  refine ⟨fun e => ⟨rfl, rfl⟩, fun s => rfl, fun r => rfl, fun m => rfl,
    fun o => rfl, fun l => rfl, fun ps => rfl, fun p => rfl, fun p => rfl,
    ?_, ?_⟩
  · intro p q
    simp only [transformPoint]
    linear_combination
      (((p.1 - q.1) ^ 2 + (p.2 - q.2) ^ 2) : ℝ) * Real.sin_sq_add_cos_sq a
  · intro p h
    simp only [transformPoint, psub, padd, Real.cos_add, Real.sin_add,
      Prod.mk.injEq]
    constructor <;> ring

/-- C4 witness: the amended transform law at angle 1, zero anchor and
translation, on a one-obstacle bundle. -/
theorem C4_transrot_export_consistency_witness :
    transformObj 1 (0, 0) (0, 0)
        (.obstacle ⟨"static", "parkedVehicle", [⟨5, 2, 0, (5 / 2, 0)⟩]⟩) =
      .obstacle ⟨"static", "parkedVehicle",
        [⟨5, 2, 0 - 1, transformPoint 1 (0, 0) (0, 0) (5 / 2, 0)⟩]⟩ :=
  (C4_transrot_export_consistency 1 (0, 0) (0, 0)).2.2.2.2.1
    ⟨"static", "parkedVehicle", [⟨5, 2, 0, (5 / 2, 0)⟩]⟩

/-! ### Clothoid (Euler spiral) -/

/-- Embeds `np.arange(start, stop, step)`: the values `start + i*step` for
`0 ≤ i < ⌈(stop - start)/step⌉` (empty when the quotient is not
positive). -/
noncomputable def arange (start stop step : ℝ) : List ℝ :=
  (List.range ⌈(stop - start) / step⌉₊).map
    fun (i : ℕ) => start + (i : ℝ) * step

/-- Embeds `euler_spiral(l, A)` from the source: the Fresnel-type integrals
scaled by `A * sqrt(pi)`. -/
noncomputable def euler_spiral (l a : ℝ) : Pt :=
  (a * Real.sqrt Real.pi * ∫ t in (0 : ℝ)..l, Real.cos (Real.pi * t ^ 2 / 2),
   a * Real.sqrt Real.pi * ∫ t in (0 : ℝ)..l, Real.sin (Real.pi * t ^ 2 / 2))

/-- Arc length at which a clothoid of parameter `A` reaches the given
curvature: `|curvature| * A / sqrt(pi)`. -/
noncomputable def clothoidLen (curv a : ℝ) : ℝ :=
  |curv| * a / Real.sqrt Real.pi

/-- One sampled clothoid point: the Euler spiral evaluated at arc
length `l`, with the y-coordinate negated when the half's curvature is
negative (right turn). -/
noncomputable def clothoidHalfPoint (curv a l : ℝ) : Pt :=
  let p := euler_spiral l a
  if curv < 0 then (p.1, -p.2) else p

/-- Embeds `Clothoid.__init__` point sampling: the begin half from
`-len(curvature_begin)` to 0 and the end half from 0 to
`len(curvature_end)`, both at 0.01 arc-length steps, concatenated. -/
noncomputable def clothoidPoints (curvB curvE a : ℝ) : List Pt :=
  (arange (-(clothoidLen curvB a)) 0 0.01).map (clothoidHalfPoint curvB a) ++
  (arange 0 (clothoidLen curvE a) 0.01).map (clothoidHalfPoint curvE a)

/-- Embeds `Clothoid.get_beginning`: direction-only pose from the first two
sampled points (fewer than two points raises `IndexError`). -/
noncomputable def clothoidGetBeginningE (points : List Pt) (curvB : ℝ) :
    Except PyErr Pose :=
  match points with
  | p0 :: p1 :: _ =>
    let dir := psub p0 p1
    .ok ⟨p0, atan2 dir.2 dir.1, curvB⟩
  | _ => .error .indexError

/-! ### C7: insufficient-points failure modes -/

/-- C7 counterexample: the generic pose derivation on a two-point
sample sequence fails with an `IndexError` (out-of-range access of
`points[2]`), not with the dedicated `MissingPointsException`. -/
theorem C7_missing_points_counterexample :
    getBeginningE [((0 : ℝ), (0 : ℝ)), (1, 0)] = .error .indexError ∧
      PyErr.indexError ≠ PyErr.missingPoints :=
  ⟨rfl, by decide⟩

/-- C7 (amended): only the bounding-box query on an empty sample
sequence raises the dedicated `MissingPointsException`; the circle-fit
pose derivations on fewer than 3 points and the direction-only clothoid
pose on fewer than 2 points instead fail with an `IndexError`. -/
theorem C7_insufficient_points_errors :
    (∀ (points : List Pt), points.length = 0 →
      getBoundingBoxE points = .error .missingPoints) ∧
    (∀ points : List Pt, points.length < 3 →
      getBeginningE points = .error .indexError) ∧
    (∀ points : List Pt, points.length < 3 →
      getEndingE points = .error .indexError) ∧
    (∀ (points : List Pt) (curvB : ℝ), points.length < 2 →
      clothoidGetBeginningE points curvB = .error .indexError) := by
  refine ⟨?_, ?_, ?_, ?_⟩
  · intro points h
    simp [getBoundingBoxE, h]
  · intro points h
    match points with
    | [] => rfl
    | [_] => rfl
    | [_, _] => rfl
    | _ :: _ :: _ :: _ => simp at h; omega
  · intro points h
    match points with
    | [] => rfl
    | [_] => rfl
    | [_, _] => rfl
    | _ :: _ :: _ :: _ => simp at h; omega
  · intro points curvB h
    match points with
    | [] => rfl
    | [_] => rfl
    | _ :: _ :: _ => simp at h; omega

/-- C7 witness: the amended failure modes at concrete inputs (an empty
sequence, a two-point sequence, and a one-point clothoid sample
list). -/
theorem C7_insufficient_points_errors_witness :
    getBoundingBoxE ([] : List Pt) = .error .missingPoints ∧
    getBeginningE [((0 : ℝ), (0 : ℝ)), (2, 0)] = .error .indexError ∧
    getEndingE [((0 : ℝ), (0 : ℝ)), (2, 0)] = .error .indexError ∧
    clothoidGetBeginningE [((0 : ℝ), (0 : ℝ))] 1 = .error .indexError :=
  ⟨C7_insufficient_points_errors.1 [] (by simp),
   C7_insufficient_points_errors.2.1 [(0, 0), (2, 0)] (by simp),
   C7_insufficient_points_errors.2.2.1 [(0, 0), (2, 0)] (by simp),
   C7_insufficient_points_errors.2.2.2 [(0, 0)] 1 (by simp)⟩

/-! ### C8: degenerate circle fit -/

theorem circle_from_points_collinear (x1 y1 x2 y2 x3 y3 : ℝ)
    (h : (x2 - x1) * (y3 - y2) - (x3 - x2) * (y2 - y1) = 0) :
    circle_from_points x1 y1 x2 y2 x3 y3 = none := by
  simp only [circle_from_points]
  rw [if_neg]
  push_neg
  linear_combination h

/-- C8 counterexample: on the collinear straight-run samples
`(0,0), (1,0), (2,0)` the generic pose derivation fails with a
`TypeError` (the source unpacks the solver's `None` into
`circle_mid, radius`), so the no-solution result is NOT treated as a
recoverable flat zero-curvature case. -/
theorem C8_collinear_pose_counterexample :
    getBeginningE [((0 : ℝ), (0 : ℝ)), (1, 0), (2, 0)] = .error .typeError := by
  have h := circle_from_points_collinear 0 0 1 0 2 0 (by norm_num)
  simp [getBeginningE, h]

/-- C8 (amended): the circle-through-three-points solver returns no
solution exactly for collinear (or repeated) points, but the generic
pose derivation does not recover from it: on any collinear first three
samples it fails with a `TypeError` instead of producing a flat
zero-curvature pose. -/
theorem C8_degenerate_circle_fit :
    (∀ x1 y1 x2 y2 x3 y3 : ℝ,
      (x2 - x1) * (y3 - y2) - (x3 - x2) * (y2 - y1) = 0 →
      circle_from_points x1 y1 x2 y2 x3 y3 = none) ∧
    (∀ (p0 p1 p2 : Pt) (rest : List Pt),
      (p1.1 - p0.1) * (p2.2 - p1.2) - (p2.1 - p1.1) * (p1.2 - p0.2) = 0 →
      getBeginningE (p0 :: p1 :: p2 :: rest) = .error .typeError) := by
  refine ⟨circle_from_points_collinear, ?_⟩
  intro p0 p1 p2 rest h
  have hc := circle_from_points_collinear p0.1 p0.2 p1.1 p1.2 p2.1 p2.2 h
  simp [getBeginningE, hc]

/-- C8 witness: the amended statement at the collinear input
`(0,0), (3,0), (6,0)`. -/
theorem C8_degenerate_circle_fit_witness :
    circle_from_points 0 0 3 0 6 0 = none ∧
      getBeginningE [((0 : ℝ), (0 : ℝ)), (3, 0), (6, 0)] = .error .typeError :=
  ⟨C8_degenerate_circle_fit.1 0 0 3 0 6 0 (by norm_num),
   C8_degenerate_circle_fit.2 (0, 0) (3, 0) (6, 0) [] (by norm_num)⟩

/-! ### C5: clothoid half-curve symmetry -/

theorem fresnel_cos_odd (l : ℝ) :
    (∫ t in (0 : ℝ)..(-l), Real.cos (Real.pi * t ^ 2 / 2)) =
      -∫ t in (0 : ℝ)..l, Real.cos (Real.pi * t ^ 2 / 2) := by
  have h2 : (∫ x in (0 : ℝ)..(-l), Real.cos (Real.pi * (-x) ^ 2 / 2)) =
      ∫ x in (-(-l))..(-(0 : ℝ)), Real.cos (Real.pi * x ^ 2 / 2) :=
    intervalIntegral.integral_comp_neg fun t => Real.cos (Real.pi * t ^ 2 / 2)
  calc ∫ t in (0 : ℝ)..(-l), Real.cos (Real.pi * t ^ 2 / 2)
      = ∫ x in (0 : ℝ)..(-l), Real.cos (Real.pi * (-x) ^ 2 / 2) := by
        apply intervalIntegral.integral_congr
        intro x _
        simp [neg_sq]
    _ = ∫ x in (-(-l))..(-(0 : ℝ)), Real.cos (Real.pi * x ^ 2 / 2) := h2
    _ = -∫ t in (0 : ℝ)..l, Real.cos (Real.pi * t ^ 2 / 2) := by
        rw [neg_neg, neg_zero, intervalIntegral.integral_symm]

theorem fresnel_sin_odd (l : ℝ) :
    (∫ t in (0 : ℝ)..(-l), Real.sin (Real.pi * t ^ 2 / 2)) =
      -∫ t in (0 : ℝ)..l, Real.sin (Real.pi * t ^ 2 / 2) := by
  have h2 : (∫ x in (0 : ℝ)..(-l), Real.sin (Real.pi * (-x) ^ 2 / 2)) =
      ∫ x in (-(-l))..(-(0 : ℝ)), Real.sin (Real.pi * x ^ 2 / 2) :=
    intervalIntegral.integral_comp_neg fun t => Real.sin (Real.pi * t ^ 2 / 2)
  calc ∫ t in (0 : ℝ)..(-l), Real.sin (Real.pi * t ^ 2 / 2)
      = ∫ x in (0 : ℝ)..(-l), Real.sin (Real.pi * (-x) ^ 2 / 2) := by
        apply intervalIntegral.integral_congr
        intro x _
        simp [neg_sq]
    _ = ∫ x in (-(-l))..(-(0 : ℝ)), Real.sin (Real.pi * x ^ 2 / 2) := h2
    _ = -∫ t in (0 : ℝ)..l, Real.sin (Real.pi * t ^ 2 / 2) := by
        rw [neg_neg, neg_zero, intervalIntegral.integral_symm]

/-- The Euler spiral is odd: the position at arc length `-l` is the
point reflection of the position at `l`. -/
theorem euler_spiral_neg (l a : ℝ) :
    euler_spiral (-l) a =
      (-(euler_spiral l a).1, -(euler_spiral l a).2) := by
  simp only [euler_spiral, fresnel_cos_odd, fresnel_sin_odd, Prod.mk.injEq]
  constructor <;> ring

/-- The begin-half sampling formula with negated curvature is the
y-axis mirror of the end-half formula: the extra y-negation for
negative curvature turns the spiral's inherent point symmetry into a
mirror symmetry. -/
theorem clothoidHalfPoint_mirror (a s : ℝ) :
    clothoidHalfPoint (-1) a (-s) =
      (-(euler_spiral s a).1, (euler_spiral s a).2) := by
  simp only [clothoidHalfPoint, if_pos (show (-1 : ℝ) < 0 by norm_num),
    euler_spiral_neg, neg_neg]

theorem euler_spiral_zero (a : ℝ) : euler_spiral 0 a = (0, 0) := by
  simp [euler_spiral]

/-- Positivity of both Euler-spiral coordinates for arc lengths in
`(0, 1]` (the Fresnel integrands are positive there). -/
theorem euler_spiral_pos (a l : ℝ) (ha : 0 < a) (h0 : 0 < l) (h1 : l ≤ 1) :
    0 < (euler_spiral l a).1 ∧ 0 < (euler_spiral l a).2 := by
  have hfac : 0 < a * Real.sqrt Real.pi :=
    mul_pos ha (Real.sqrt_pos.mpr Real.pi_pos)
  have hccont : Continuous fun t : ℝ => Real.cos (Real.pi * t ^ 2 / 2) := by
    continuity
  have hscont : Continuous fun t : ℝ => Real.sin (Real.pi * t ^ 2 / 2) := by
    continuity
  constructor
  · refine mul_pos hfac (intervalIntegral.intervalIntegral_pos_of_pos_on
      (hccont.intervalIntegrable 0 l) ?_ h0)
    intro x hx
    apply Real.cos_pos_of_mem_Ioo
    constructor
    · nlinarith [Real.pi_pos, sq_nonneg x]
    · have hx2 : x ^ 2 < 1 := by nlinarith [hx.1, hx.2]
      nlinarith [Real.pi_pos]
  · refine mul_pos hfac (intervalIntegral.intervalIntegral_pos_of_pos_on
      (hscont.intervalIntegrable 0 l) ?_ h0)
    intro x hx
    apply Real.sin_pos_of_pos_of_lt_pi
    · have hxsq : 0 < x ^ 2 := pow_pos hx.1 2
      nlinarith [Real.pi_pos]
    · have hx2 : x ^ 2 < 1 := by nlinarith [hx.1, hx.2]
      nlinarith [Real.pi_pos]

theorem clothoidHalfPoint_pos_eval (a s : ℝ) :
    clothoidHalfPoint 1 a s = euler_spiral s a := by
  simp only [clothoidHalfPoint, if_neg (show ¬ ((1 : ℝ) < 0) by norm_num)]

theorem c5_len_begin :
    clothoidLen (-1) (Real.sqrt Real.pi / 50) = 1 / 50 := by
  have h : Real.sqrt Real.pi ≠ 0 := ne_of_gt (Real.sqrt_pos.mpr Real.pi_pos)
  unfold clothoidLen
  rw [show |(-1 : ℝ)| = 1 by norm_num]
  field_simp
  ring

theorem c5_len_end :
    clothoidLen 1 (Real.sqrt Real.pi / 50) = 1 / 50 := by
  have h : Real.sqrt Real.pi ≠ 0 := ne_of_gt (Real.sqrt_pos.mpr Real.pi_pos)
  unfold clothoidLen
  rw [show |(1 : ℝ)| = 1 by norm_num]
  field_simp
  ring

theorem c5_arange_begin :
    arange (-(1 / 50)) 0 0.01 = [-(1 / 50), -(1 / 100)] := by
  unfold arange
  rw [show ((0 : ℝ) - -(1 / 50)) / 0.01 = 2 by norm_num,
    show ⌈(2 : ℝ)⌉₊ = 2 by simp]
  simp [List.range_succ]
  norm_num

theorem c5_arange_end :
    arange 0 (1 / 50) 0.01 = [0, 1 / 100] := by
  unfold arange
  rw [show ((1 / 50 : ℝ) - 0) / 0.01 = 2 by norm_num,
    show ⌈(2 : ℝ)⌉₊ = 2 by simp]
  simp [List.range_succ]
  norm_num

theorem c5_points_eval :
    clothoidPoints (-1) 1 (Real.sqrt Real.pi / 50) =
      [(-(euler_spiral (1 / 50) (Real.sqrt Real.pi / 50)).1,
         (euler_spiral (1 / 50) (Real.sqrt Real.pi / 50)).2),
       (-(euler_spiral (1 / 100) (Real.sqrt Real.pi / 50)).1,
         (euler_spiral (1 / 100) (Real.sqrt Real.pi / 50)).2),
       ((0 : ℝ), (0 : ℝ)),
       euler_spiral (1 / 100) (Real.sqrt Real.pi / 50)] := by
  unfold clothoidPoints
  rw [c5_len_begin, c5_len_end, c5_arange_begin, c5_arange_end]
  simp only [List.map_cons, List.map_nil, List.cons_append, List.nil_append,
    clothoidHalfPoint_mirror, clothoidHalfPoint_pos_eval, euler_spiral_zero]

/-- C5 counterexample: for `k = 1` and `A = sqrt(pi)/50` the sampled
point sequence of `Clothoid(-k, k, A)` is NOT point-reflection-symmetric
about the origin: the reflection of the sample at arc length `0.01` is
not among the sampled points (the begin half carries `(-x, +y)`, not
`(-x, -y)`). -/
theorem C5_clothoid_point_symmetry_counterexample :
    ¬ (∀ p ∈ clothoidPoints (-1) 1 (Real.sqrt Real.pi / 50),
        ((-p.1, -p.2) : Pt) ∈ clothoidPoints (-1) 1 (Real.sqrt Real.pi / 50)) := by
  intro hsym
  have ha0 : 0 < Real.sqrt Real.pi / 50 :=
    div_pos (Real.sqrt_pos.mpr Real.pi_pos) (by norm_num)
  obtain ⟨hX1, hY1⟩ := euler_spiral_pos (Real.sqrt Real.pi / 50) (1 / 100)
    ha0 (by norm_num) (by norm_num)
  obtain ⟨hX2, hY2⟩ := euler_spiral_pos (Real.sqrt Real.pi / 50) (1 / 50)
    ha0 (by norm_num) (by norm_num)
  have hmem : euler_spiral (1 / 100) (Real.sqrt Real.pi / 50) ∈
      clothoidPoints (-1) 1 (Real.sqrt Real.pi / 50) := by
    rw [c5_points_eval]
    simp
  have h := hsym _ hmem
  rw [c5_points_eval] at h
  simp only [List.mem_cons, List.not_mem_nil, or_false] at h
  rcases h with h | h | h | h
  · have h2 := congrArg Prod.snd h
    simp only [] at h2
    linarith
  · have h2 := congrArg Prod.snd h
    simp only [] at h2
    linarith
  · have h2 := congrArg Prod.snd h
    simp only [] at h2
    linarith
  · have h2 := congrArg Prod.fst h
    simp only [] at h2
    linarith

/-- C5 (amended): for every `k > 0` the two half-curve sampling
formulas of `Clothoid(-k, k, A)` are mirror images across the y-axis
rather than point reflections through the origin: the begin-half point
at arc length `-l` equals `(-x, +y)` of the end-half point at `+l`, and
both halves span the same arc length. -/
theorem C5_clothoid_mirror_symmetry (k a l : ℝ) (hk : 0 < k) :
    clothoidHalfPoint (-k) a (-l) =
      (-(clothoidHalfPoint k a l).1, (clothoidHalfPoint k a l).2) ∧
    clothoidLen (-k) a = clothoidLen k a := by
  constructor
  · have h1 : (-k) < 0 := neg_lt_zero.mpr hk
    have h2 : ¬ (k < 0) := not_lt.mpr hk.le
    simp only [clothoidHalfPoint, if_pos h1, if_neg h2, euler_spiral_neg,
      neg_neg]
  · simp [clothoidLen, abs_neg]

/-- C5 witness: the amended mirror law at `k = 1`, `A = 2`,
`l = 1/4`. -/
theorem C5_clothoid_mirror_symmetry_witness :
    clothoidHalfPoint (-1) 2 (-(1 / 4)) =
      (-(clothoidHalfPoint 1 2 (1 / 4)).1, (clothoidHalfPoint 1 2 (1 / 4)).2) ∧
    clothoidLen (-1) 2 = clothoidLen 1 2 :=
  C5_clothoid_mirror_symmetry 1 2 (1 / 4) (by norm_num)

/-! ### Intersection

`Intersection.export` builds eight approach-leg lanelets, optional
connector lanelets for the commanded turn, and signage determined by
the right-of-way rule.  Lanelet identity refs follow creation order:
southRight 0, southLeft 1, northRight 2, northLeft 3, eastRight 4,
eastLeft 5, westRight 6, westLeft 7, then the two turn connector
lanelets 8 and 9. -/

/-- The fixed junction half-size (`self._size = 0.9`). -/
def interSize : ℝ := 0.9

/-- Stop-line marking of the north/south right lanelets as a function
of the rule (the `elif` chain in the source). -/
def interStopNS (rule : String) : Option String :=
  if rule = "equal" then some "dashed"
  else if rule = "yield" then some "dashed"
  else if rule = "stop" then some "solid"
  else none

/-- Stop-line marking of the east/west right lanelets as a function of
rule and turn direction. -/
def interStopEW (rule turn : String) : Option String :=
  if rule = "equal" then some "dashed"
  else if rule = "priority-yield" ∧ turn = "straight" then some "dashed"
  else if rule = "priority-stop" ∧ turn = "straight" then some "solid"
  else none

/-- The eight approach-leg lanelets, in the order of the `result` list
of the source. -/
def interBaseLanelets (rule turn : String) (w : ℝ) : List SceneObject :=
  [.lanelet ⟨0, ⟨[(0, -interSize), (0, -w)], some "dashed"⟩,
      ⟨[(w, -interSize), (w, -w)], some "solid"⟩,
      false, none, interStopNS rule, none⟩,
   .lanelet ⟨1, ⟨[(0, -w), (0, -interSize)], none⟩,
      ⟨[(-w, -w), (-w, -interSize)], some "solid"⟩,
      false, none, none, none⟩,
   .lanelet ⟨3, ⟨[(0, w), (0, interSize)], none⟩,
      ⟨[(w, w), (w, interSize)], some "solid"⟩,
      false, none, none, none⟩,
   .lanelet ⟨2, ⟨[(0, interSize), (0, w)], some "dashed"⟩,
      ⟨[(-w, interSize), (-w, w)], some "solid"⟩,
      false, none, interStopNS rule, none⟩,
   .lanelet ⟨5, ⟨[(w, 0), (interSize, 0)], some "dashed"⟩,
      ⟨[(w, -w), (interSize, -w)], some "solid"⟩,
      false, none, none, none⟩,
   .lanelet ⟨4, ⟨[(interSize, 0), (w, 0)], none⟩,
      ⟨[(interSize, w), (w, w)], some "solid"⟩,
      false, none, interStopEW rule turn, none⟩,
   .lanelet ⟨7, ⟨[(-w, 0), (-interSize, 0)], some "dashed"⟩,
      ⟨[(-w, w), (-interSize, w)], some "solid"⟩,
      false, none, none, none⟩,
   .lanelet ⟨6, ⟨[(-interSize, 0), (-w, 0)], none⟩,
      ⟨[(-interSize, -w), (-w, -w)], some "solid"⟩,
      false, none, interStopEW rule turn, none⟩]

/-- The left-turn connector pair (quarter-circle arcs about
`(-w, -w)`, sampled at angle step `pi/20`). -/
noncomputable def interLeftConnectors (w : ℝ) : List SceneObject :=
  [.lanelet ⟨8,
      ⟨(arange 0 (Real.pi / 2) (Real.pi / 20)).map fun angle =>
          (-w + Real.cos angle * w, -w + Real.sin angle * w), some "dashed"⟩,
      ⟨(arange 0 (Real.pi / 2) (Real.pi / 20)).map fun angle =>
          (-w + Real.cos angle * w * 2, -w + Real.sin angle * w * 2),
        some "dashed"⟩,
      false, none, none, none⟩,
   .lanelet ⟨9,
      ⟨(arange (Real.pi / 2) 0 (-(Real.pi / 20))).map fun angle =>
          (-w + Real.cos angle * w, -w + Real.sin angle * w), none⟩,
      ⟨(arange (Real.pi / 2) 0 (-(Real.pi / 20))).map fun _ =>
          ((-w, -w) : Pt), none⟩,
      false, none, none, none⟩]

/-- The right-turn connector pair (arcs about `(w, -w)`). -/
noncomputable def interRightConnectors (w : ℝ) : List SceneObject :=
  [.lanelet ⟨8,
      ⟨(arange Real.pi (Real.pi / 2) (-(Real.pi / 20))).map fun angle =>
          (w + Real.cos angle * w, -w + Real.sin angle * w), some "dashed"⟩,
      ⟨(arange Real.pi (Real.pi / 2) (-(Real.pi / 20))).map fun _ =>
          ((w, -w) : Pt), none⟩,
      false, none, none, none⟩,
   .lanelet ⟨9,
      ⟨(arange (Real.pi / 2) Real.pi (Real.pi / 20)).map fun angle =>
          (w + Real.cos angle * w, -w + Real.sin angle * w), none⟩,
      ⟨(arange (Real.pi / 2) Real.pi (Real.pi / 20)).map fun angle =>
          (w + Real.cos angle * w * 2, -w + Real.sin angle * w * 2),
        some "dashed"⟩,
      false, none, none, none⟩]

/-- The straight connector pair. -/
def interStraightConnectors (w : ℝ) : List SceneObject :=
  [.lanelet ⟨8, ⟨[(0, -w), (0, w)], none⟩,
      ⟨[(w, -w), (w, w)], none⟩, false, none, none, none⟩,
   .lanelet ⟨9, ⟨[(0, w), (0, -w)], none⟩,
      ⟨[(-w, w), (-w, -w)], none⟩, false, none, none, none⟩]

/-- The signs and road markings appended inside the turn-direction
branches (`tw` is `config.turn_road_marking_width`). -/
noncomputable def interDirSigns (turn rule : String) (w tw : ℝ) :
    List SceneObject :=
  if turn = "left" then
    [.trafficSign ⟨"stvo-209-10", Real.pi * 1.5, (w + 0.1, -w - 0.25)⟩,
     .roadMarking ⟨"turn_right", Real.pi, ((w + tw) * 0.5, -w - 0.25)⟩] ++
    (if rule ≠ "yield" then
      [.roadMarking ⟨"turn_left", Real.pi * 0.5, (-w - 0.25, -((w + tw) * 0.5))⟩,
       .trafficSign ⟨"stvo-209-20", Real.pi, (-w - 0.25, -w - 0.1)⟩]
     else [])
  else if turn = "right" then
    [.trafficSign ⟨"stvo-209-20", Real.pi * 1.5, (w + 0.1, -w - 0.25)⟩,
     .roadMarking ⟨"turn_left", Real.pi, ((w + tw) * 0.5, -w - 0.25)⟩] ++
    (if rule ≠ "yield" then
      [.roadMarking ⟨"turn_right", Real.pi * 1.5, (w + 0.25, (w + tw) * 0.5)⟩,
       .trafficSign ⟨"stvo-209-10", 0, (w + 0.25, w + 0.1)⟩]
     else [])
  else []

/-- The connector lanelets emitted in the turn-direction branch. -/
noncomputable def interDirLanelets (turn : String) (w : ℝ) :
    List SceneObject :=
  if turn = "left" then interLeftConnectors w
  else if turn = "right" then interRightConnectors w
  else if turn = "straight" then interStraightConnectors w
  else []

/-- The additional lanelet pairs of the turn-direction branch. -/
def interDirPairs (turn : String) : List (ℕ × ℕ) :=
  if turn = "left" then [(8, 9), (7, 6)]
  else if turn = "right" then [(8, 9), (5, 4)]
  else if turn = "straight" then [(8, 9), (3, 2)]
  else []

/-- The rule lookup `type_map` applied for the facing signs. -/
def interRuleSign (rule : String) : Option String :=
  if rule = "priority-yield" then some "stvo-306"
  else if rule = "priority-stop" then some "stvo-306"
  else if rule = "yield" then some "stvo-205"
  else if rule = "stop" then some "stvo-206"
  else none

/-- The opposite-approach lookup `type_map_opposite`. -/
def interRuleSignOpp (rule : String) : Option String :=
  if rule = "priority-yield" then some "stvo-206"
  else if rule = "priority-stop" then some "stvo-306"
  else if rule = "yield" then some "stvo-306"
  else if rule = "stop" then some "stvo-306"
  else none

/-- The four rule-determined traffic signs (both membership tests in the
source check `type_map`, whose key set equals that of
`type_map_opposite`). -/
noncomputable def interRuleSigns (rule : String) (w : ℝ) : List SceneObject :=
  match interRuleSign rule, interRuleSignOpp rule with
  | some t, some topp =>
    [.trafficSign ⟨t, Real.pi * 1.5, (w + 0.1, -w - 0.5)⟩,
     .trafficSign ⟨t, Real.pi * 0.5, (-w - 0.1, w + 0.5)⟩,
     .trafficSign ⟨topp, 0, (w + 0.5, w + 0.1)⟩,
     .trafficSign ⟨topp, Real.pi, (-w - 0.5, -w - 0.1)⟩]
  | _, _ => []

/-- Embeds `Intersection.export`. -/
noncomputable def intersectionExport (turn rule : String) (w tw : ℝ) :
    ExportBundle :=
  ⟨interBaseLanelets rule turn w ++ interDirLanelets turn w ++
     interDirSigns turn rule w tw ++ interRuleSigns rule w,
   [(0, 1)] ++ interDirPairs turn⟩

/-! ### Export-bundle invariant (C3) -/

/-- Number of occurrences of the lanelet with identity `i` in an object
list. -/
def laneletOcc : List SceneObject → ℕ → ℕ
  | [], _ => 0
  | .lanelet l :: rest, i => (if l.ref = i then 1 else 0) + laneletOcc rest i
  | _ :: rest, i => laneletOcc rest i

/-- Number of pairs that mention the lanelet with identity `i`. -/
def pairOcc : List (ℕ × ℕ) → ℕ → ℕ
  | [], _ => 0
  | pr :: rest, i => (if pr.1 = i ∨ pr.2 = i then 1 else 0) + pairOcc rest i

/-- The export-bundle invariant: every lanelet referenced by a pair
occurs exactly once in the object list, and no lanelet occurs in more
than one pair. -/
def exportInvariant (e : ExportBundle) : Prop :=
  (∀ pr ∈ e.laneletPairs,
    laneletOcc e.objects pr.1 = 1 ∧ laneletOcc e.objects pr.2 = 1) ∧
  (∀ i : ℕ, pairOcc e.laneletPairs i ≤ 1)

theorem laneletOcc_append (xs ys : List SceneObject) (i : ℕ) :
    laneletOcc (xs ++ ys) i = laneletOcc xs i + laneletOcc ys i := by
  induction xs with
  | nil => simp [laneletOcc]
  | cons x xs ih =>
    cases x with
    | lanelet l =>
      simp only [List.cons_append, laneletOcc, List.append_eq, ih, add_assoc]
    | obstacle o => simpa [laneletOcc] using ih
    | trafficSign s => simpa [laneletOcc] using ih
    | ramp r => simpa [laneletOcc] using ih
    | junction ps => simpa [laneletOcc] using ih
    | roadMarking m => simpa [laneletOcc] using ih

theorem laneletOcc_interDirSigns (turn rule : String) (w tw : ℝ) (i : ℕ) :
    laneletOcc (interDirSigns turn rule w tw) i = 0 := by
  unfold interDirSigns
  split_ifs <;> simp [laneletOcc, laneletOcc_append]

theorem laneletOcc_interRuleSigns (rule : String) (w : ℝ) (i : ℕ) :
    laneletOcc (interRuleSigns rule w) i = 0 := by
  unfold interRuleSigns
  split <;> simp [laneletOcc]

/-! ### TrafficIsland -/

/-- Embeds `self._padding = 0.2`. -/
def tiPadding : ℝ := 0.2

/-- Embeds `self._curve_area_length = 0.8`. -/
def tiCurveArea : ℝ := 0.8

/-- Embeds `TrafficIsland` total centerline length. -/
noncomputable def tiLength (zL : ℝ) : ℝ := tiPadding * 2 + tiCurveArea * 2 + zL

/-- Embeds `TrafficIsland.get_points`. -/
noncomputable def tiGetPoints (zL : ℝ) : List Pt := [(0, 0), (tiLength zL, 0)]

/-- Embeds `TrafficIsland.get_beginning`. -/
noncomputable def tiGetBeginning : Pose := ⟨(0, 0), Real.pi, 0⟩

/-- Embeds `TrafficIsland.get_ending`: note the position is
`length + zebraLength`, one extra zebra length beyond the last sampled
centerline point. -/
noncomputable def tiGetEnding (zL : ℝ) : Pose := ⟨(tiLength zL + zL, 0), 0, 0⟩

/-- The island's principal direction (normalized first-to-second sample
direction). -/
noncomputable def tiPrincipal (zL : ℝ) : Pt :=
  pnormalize (psub (tiLength zL, 0) (0, 0))

/-- The island's orthogonal direction (left-hand perpendicular,
normalized again as in the source). -/
noncomputable def tiOrthogonal (zL : ℝ) : Pt :=
  pnormalize (-(tiPrincipal zL).2, (tiPrincipal zL).1)

/-- Embeds `split_starting_point`. -/
noncomputable def tiSplitStart (zL : ℝ) : Pt :=
  padd (0, 0) (psmul tiPadding (tiPrincipal zL))

/-- Embeds `zebra_start_right_center`. -/
noncomputable def tiZebraStartRightCenter (iW zL : ℝ) : Pt :=
  psub (padd (tiSplitStart zL) (psmul tiCurveArea (tiPrincipal zL)))
    (psmul (iW * 0.5) (tiOrthogonal zL))

/-- Embeds `zebra_start_left_center`. -/
noncomputable def tiZebraStartLeftCenter (iW zL : ℝ) : Pt :=
  padd (padd (tiSplitStart zL) (psmul tiCurveArea (tiPrincipal zL)))
    (psmul (iW * 0.5) (tiOrthogonal zL))

/-- Embeds `quad_bezier_line_function(t, p0..p3, A, d)`: the cubic Bézier's
line-distance function whose roots in `[0,1]` are the curve/line
intersections. -/
noncomputable def bezLineF (p0 p1 p2 p3 A : Pt) (d t : ℝ) : ℝ :=
  (1 - t) ^ 3 * pdot A p0 + 3 * (1 - t) ^ 2 * t * pdot A p1 +
    3 * (1 - t) * t ^ 2 * pdot A p2 + t ^ 3 * pdot A p3 - d

/-- Embeds `_compute_cubic_bezier` (De Casteljau). -/
noncomputable def computeCubicBezier (t : ℝ) (p0 p1 p2 p3 : Pt) : Pt :=
  let c0 := padd (psmul (1 - t) p0) (psmul t p1)
  let c1 := padd (psmul (1 - t) p1) (psmul t p2)
  let c2 := padd (psmul (1 - t) p2) (psmul t p3)
  let d0 := padd (psmul (1 - t) c0) (psmul t c1)
  let d1 := padd (psmul (1 - t) c1) (psmul t c2)
  padd (psmul (1 - t) d0) (psmul t d1)

/-- Embeds `scipy.optimize.root_scalar(..., bracket=[0,1], method=brentq)`:
raises `ValueError` when the bracket endpoint values have the same
strict sign (`f(0) * f(1) > 0`); otherwise it returns a root of `f` in
`[0, 1]`. -/
noncomputable def brentq (f : ℝ → ℝ) : Except Unit ℝ :=
  if 0 < f 0 * f 1 then .error ()
  else .ok (if h : ∃ t ∈ Set.Icc (0 : ℝ) 1, f t = 0 then h.choose else 0)

/-- The y-sweep junction loop (both the starting and the merging
junction use this shape): for each sampled line the root on the left
center curve is computed WITHOUT a try/except, so a failed bracket
propagates as an error. -/
noncomputable def tiStartLoopY (lp0 lp1 lp2 lp3 A : Pt) (xrc : ℝ) :
    List ℝ → Except Unit (List Pt)
  | [] => .ok []
  | y :: ys =>
    match brentq (bezLineF lp0 lp1 lp2 lp3 A (xrc * A.1 + y * A.2)) with
    | .error e => .error e
    | .ok r =>
      match tiStartLoopY lp0 lp1 lp2 lp3 A xrc ys with
      | .error e => .error e
      | .ok rest =>
        .ok ((xrc, y) :: computeCubicBezier r lp0 lp1 lp2 lp3 :: rest)

/-- The x-sweep junction loop: the root-find on the right center curve
is guarded by try/except (a failed bracket skips the sample), but the
subsequent root-find on the left center curve is unguarded. -/
noncomputable def tiStartLoopX (rp0 rp1 rp2 rp3 lp0 lp1 lp2 lp3 A : Pt)
    (y0 : ℝ) : List ℝ → Except Unit (List Pt)
  | [] => .ok []
  | x :: xs =>
    match brentq (bezLineF rp0 rp1 rp2 rp3 A (x * A.1 + y0 * A.2)) with
    | .error _ => tiStartLoopX rp0 rp1 rp2 rp3 lp0 lp1 lp2 lp3 A y0 xs
    | .ok r =>
      match brentq (bezLineF lp0 lp1 lp2 lp3 A (x * A.1 + y0 * A.2)) with
      | .error e => .error e
      | .ok r2 =>
        match tiStartLoopX rp0 rp1 rp2 rp3 lp0 lp1 lp2 lp3 A y0 xs with
        | .error e => .error e
        | .ok rest =>
          .ok (computeCubicBezier r rp0 rp1 rp2 rp3 ::
            computeCubicBezier r2 lp0 lp1 lp2 lp3 :: rest)

/-- The angle of 27 degrees in radians (the junction sample-line angle). -/
noncomputable def deg27 : ℝ := 27 / 180 * Real.pi

/-- The starting-junction sample-line normal. -/
noncomputable def tiStartA : Pt := (Real.sin deg27, Real.cos deg27)

/-- The merging-junction sample-line normal. -/
noncomputable def tiMergeA : Pt := (-Real.sin deg27, Real.cos deg27)

/-- The four root-finding loops of `TrafficIsland.export`, producing
the starting- and merging-junction polygon point lists (the source
appends the merge-side loop points to the STARTING junction, so the
merging junction keeps only its two seed points). -/
noncomputable def tiJunctionPoints (iW zL : ℝ) :
    Except Unit (List Pt × List Pt) :=
  let P := tiPrincipal zL
  let sp := tiSplitStart zL
  let zsrc := tiZebraStartRightCenter iW zL
  let zslc := tiZebraStartLeftCenter iW zL
  let lp0 := sp
  let lp1 := padd sp (psmul 0.2 P)
  let lp2 := psub zslc (psmul 0.2 P)
  let lp3 := zslc
  let rp0 := sp
  let rp1 := padd sp (psmul 0.2 P)
  let rp2 := psub zsrc (psmul 0.2 P)
  let rp3 := zsrc
  match tiStartLoopY lp0 lp1 lp2 lp3 tiStartA zsrc.1
      (arange zsrc.2 zslc.2 (0.15 * Real.tan deg27)) with
  | .error e => .error e
  | .ok l1 =>
    match tiStartLoopX rp0 rp1 rp2 rp3 lp0 lp1 lp2 lp3 tiStartA zsrc.2
        (arange zsrc.1 sp.1 (-0.15)) with
    | .error e => .error e
    | .ok l2 =>
      let zerc := padd zsrc (psmul zL P)
      let zelc := padd zslc (psmul zL P)
      let mc := padd sp (psmul (tiCurveArea * 2 + zL) P)
      let mlp0 := zelc
      let mlp1 := padd zelc (psmul 0.4 P)
      let mlp2 := psub mc (psmul 0.4 P)
      let mlp3 := mc
      let mrp0 := zerc
      let mrp1 := padd zerc (psmul 0.4 P)
      let mrp2 := psub mc (psmul 0.4 P)
      let mrp3 := mc
      match tiStartLoopY mlp0 mlp1 mlp2 mlp3 tiMergeA zerc.1
          (arange zerc.2 zelc.2 (0.15 * Real.tan deg27)) with
      | .error e => .error e
      | .ok l3 =>
        match tiStartLoopX mrp0 mrp1 mrp2 mrp3 mlp0 mlp1 mlp2 mlp3 tiMergeA
            zerc.2 (arange zerc.1 mc.1 0.15) with
        | .error e => .error e
        | .ok l4 =>
          .ok ([zsrc, zslc] ++ l1 ++ l2 ++ l3 ++ l4, [zerc, zelc])

/-- The Bézier parameter samples of `add_quad_bezier_points`
(`t` from 0 in steps of 0.01 while `t <= 1`, in exact arithmetic:
`i/100` for `i = 0, ..., 100`). -/
noncomputable def tiTSamples : List ℝ := (List.range 101).map fun i => (i : ℝ) / 100

/-- The sampled points appended by `add_quad_bezier_points`. -/
noncomputable def bezSamples (p0 p1 p2 p3 : Pt) : List Pt :=
  tiTSamples.map fun t => computeCubicBezier t p0 p1 p2 p3

/-- The fixed lanelet/pair skeleton of `TrafficIsland.export`, given
the junction polygon point lists produced by the root-finding loops.
Lanelet identity refs in creation order: padding_right 0,
padding_left 1, split_right 2, split_left 3, crossing_right 4,
crossing_left 5, merge_right 6, merge_left 7, end_padding_right 8,
end_padding_left 9. -/
noncomputable def mkIslandExport (iW zL sD : ℝ) (mk : String) (w : ℝ)
    (sjPts mjPts : List Pt) : ExportBundle :=
  let P := tiPrincipal zL
  let O := tiOrthogonal zL
  let startPt : Pt := (0, 0)
  let rightStart := psub startPt (psmul w O)
  let leftStart := padd startPt (psmul w O)
  let sp := tiSplitStart zL
  let rightSplit := psub sp (psmul w O)
  let leftSplit := padd sp (psmul w O)
  let zsrc := tiZebraStartRightCenter iW zL
  let zslc := tiZebraStartLeftCenter iW zL
  let zsro := psub (padd sp (psmul tiCurveArea P)) (psmul (iW * 0.5 + w) O)
  let zslo := padd (padd sp (psmul tiCurveArea P)) (psmul (iW * 0.5 + w) O)
  let zerc := padd zsrc (psmul zL P)
  let zeroOut := padd zsro (psmul zL P)
  let zelc := padd zslc (psmul zL P)
  let zeloOut := padd zslo (psmul zL P)
  let mc := padd sp (psmul (tiCurveArea * 2 + zL) P)
  let mor := psub mc (psmul w O)
  let mol := padd mc (psmul w O)
  let endC := padd mc (psmul tiPadding P)
  let endR := psub endC (psmul w O)
  let endL := padd endC (psmul w O)
  let attrs : Option LineAttrs :=
    if mk = "lines" then some ⟨0.02, 0.04, 0.04⟩ else none
  let stop : Option String := if mk = "lines" then some "dashed" else none
  ⟨[.lanelet ⟨0, ⟨[startPt, sp], some "dashed"⟩,
      ⟨[rightStart, rightSplit], some "solid"⟩, false, none, none, none⟩,
    .lanelet ⟨1, ⟨[startPt, sp].reverse, some "dashed"⟩,
      ⟨[leftStart, leftSplit].reverse, some "solid"⟩, false, none, none, none⟩,
    .lanelet ⟨2,
      ⟨[sp] ++ bezSamples sp (padd sp (psmul 0.2 P)) (psub zsrc (psmul 0.2 P))
          zsrc ++ (if mk = "zebra" then [zerc] else []), some "solid"⟩,
      ⟨[rightSplit] ++ bezSamples rightSplit (padd rightSplit (psmul 0.2 P))
          (psub zsro (psmul 0.2 P)) zsro ++
          (if mk = "zebra" then [zeroOut] else []), some "solid"⟩,
      false, none, stop, attrs⟩,
    .lanelet ⟨3,
      ⟨([sp] ++ bezSamples sp (padd sp (psmul 0.2 P)) (psub zslc (psmul 0.2 P))
          zslc ++ (if mk = "zebra" then [zelc] else [])).reverse, some "solid"⟩,
      ⟨([leftSplit] ++ bezSamples leftSplit (padd leftSplit (psmul 0.2 P))
          (psub zslo (psmul 0.2 P)) zslo ++
          (if mk = "zebra" then [zeloOut] else [])).reverse, some "solid"⟩,
      false, none, none, none⟩,
    .lanelet ⟨4,
      (if mk = "zebra" then ⟨[zsrc, zsro], none⟩
       else if mk = "lines" then ⟨[zsrc, zerc], some "solid"⟩
       else ⟨[], none⟩),
      (if mk = "zebra" then ⟨[zerc, zeroOut], none⟩
       else if mk = "lines" then ⟨[zsro, zeroOut], some "solid"⟩
       else ⟨[], none⟩),
      false, (if mk = "zebra" then some "zebraCrossing" else none),
      (if mk = "lines" then some "dashed" else none), attrs⟩,
    .lanelet ⟨5,
      (if mk = "zebra" then ⟨[zslc, zslo], none⟩
       else if mk = "lines" then ⟨[zslc, zelc].reverse, some "solid"⟩
       else ⟨[], none⟩),
      (if mk = "zebra" then ⟨[zelc, zeloOut], none⟩
       else if mk = "lines" then ⟨[zslo, zeloOut].reverse, some "solid"⟩
       else ⟨[], none⟩),
      false, (if mk = "zebra" then some "zebraCrossing" else none),
      (if mk = "lines" then some "dashed" else none), attrs⟩,
    .lanelet ⟨6,
      ⟨[zerc] ++ bezSamples zerc (padd zerc (psmul 0.4 P))
          (psub mc (psmul 0.4 P)) mc, some "solid"⟩,
      ⟨[zeroOut] ++ bezSamples zeroOut (padd zeroOut (psmul 0.4 P))
          (psub mor (psmul 0.4 P)) mor, some "solid"⟩,
      false, none, none, none⟩,
    .lanelet ⟨7,
      ⟨([zelc] ++ bezSamples zelc (padd zelc (psmul 0.4 P))
          (psub mc (psmul 0.4 P)) mc).reverse, some "solid"⟩,
      ⟨([zeloOut] ++ bezSamples zeloOut (padd zeloOut (psmul 0.4 P))
          (psub mol (psmul 0.4 P)) mol).reverse, some "solid"⟩,
      false, none, stop, attrs⟩,
    .lanelet ⟨8, ⟨[mc, endC], some "dashed"⟩,
      ⟨[mor, endR], some "solid"⟩, false, none, none, none⟩,
    .lanelet ⟨9, ⟨[mc, endC], some "dashed"⟩,
      ⟨[mol, endL], some "solid"⟩, false, none, none, none⟩,
    .trafficSign ⟨"stvo-222", -(Real.pi / 2), (tiPadding + sD, 0)⟩,
    .trafficSign ⟨"stvo-222", Real.pi / 2, (tiLength zL - tiPadding - sD, 0)⟩,
    .junction sjPts, .junction mjPts],
   [(0, 1), (2, 3), (4, 5), (6, 7), (8, 9)]⟩

/-- Embeds `TrafficIsland.export`: the junction root-finding may raise, in
which case the export raises; otherwise the bundle above is
produced. -/
noncomputable def trafficIslandExport (iW zL sD : ℝ) (mk : String) (w : ℝ) :
    Except Unit ExportBundle :=
  match tiJunctionPoints iW zL with
  | .error e => .error e
  | .ok (sj, mj) => .ok (mkIslandExport iW zL sD mk w sj mj)

/-- C3: for the generic boundary export, every Intersection export
(any turn direction and rule) and every TrafficIsland export, each
lanelet referenced by a lanelet pair occurs exactly once in the object
list, and no lanelet occurs in more than one pair. -/
theorem C3_export_pair_invariant :
    (∀ (points : List Pt) (leftLine middleLine rightLine : Option String)
      (isStart : Bool) (offs : List (Pt × Pt)),
      exportInvariant
        (mkGenericExport points leftLine middleLine rightLine isStart offs)) ∧
    (∀ (turn rule : String) (w tw : ℝ),
      exportInvariant (intersectionExport turn rule w tw)) ∧
    (∀ (iW zL sD : ℝ) (mk : String) (w : ℝ) (sjPts mjPts : List Pt),
      exportInvariant (mkIslandExport iW zL sD mk w sjPts mjPts)) := by
  refine ⟨?_, ?_, ?_⟩
  · intro points leftLine middleLine rightLine isStart offs
    constructor
    · intro pr hpr
      simp only [mkGenericExport, List.mem_singleton] at hpr
      subst hpr
      simp [mkGenericExport, laneletOcc]
    · intro i
      simp only [mkGenericExport, pairOcc]
      split_ifs <;> omega
  · intro turn rule w tw
    have hocc : ∀ i : ℕ,
        laneletOcc (intersectionExport turn rule w tw).objects i =
          laneletOcc (interBaseLanelets rule turn w) i +
            laneletOcc (interDirLanelets turn w) i := by
      intro i
      simp [intersectionExport, laneletOcc_append, laneletOcc_interDirSigns,
        laneletOcc_interRuleSigns]
    have hpairs : (intersectionExport turn rule w tw).laneletPairs =
        (0, 1) :: interDirPairs turn := rfl
    constructor
    · intro pr hpr
      rw [hpairs] at hpr
      rw [hocc pr.1, hocc pr.2]
      by_cases h1 : turn = "left"
      · subst h1
        simp [interDirPairs] at hpr
        rcases hpr with rfl | rfl | rfl <;>
          simp [interBaseLanelets, interDirLanelets, interLeftConnectors,
            laneletOcc]
      by_cases h2 : turn = "right"
      · subst h2
        simp [interDirPairs] at hpr
        rcases hpr with rfl | rfl | rfl <;>
          simp [interBaseLanelets, interDirLanelets, interRightConnectors,
            laneletOcc]
      by_cases h3 : turn = "straight"
      · subst h3
        simp [interDirPairs] at hpr
        rcases hpr with rfl | rfl | rfl <;>
          simp [interBaseLanelets, interDirLanelets, interStraightConnectors,
            laneletOcc]
      · simp only [interDirPairs, interDirLanelets, if_neg h1, if_neg h2,
          if_neg h3] at hpr ⊢
        simp only [List.mem_cons, List.not_mem_nil, or_false] at hpr
        subst hpr
        simp [interBaseLanelets, laneletOcc]
    · intro i
      rw [hpairs]
      unfold interDirPairs
      split_ifs <;> (simp only [pairOcc]; split_ifs <;> omega)
  · intro iW zL sD mk w sjPts mjPts
    constructor
    · intro pr hpr
      simp only [mkIslandExport] at hpr ⊢
      simp only [List.mem_cons, List.not_mem_nil, or_false] at hpr
      rcases hpr with rfl | rfl | rfl | rfl | rfl <;> simp [laneletOcc]
    · intro i
      simp only [mkIslandExport, pairOcc]
      split_ifs <;> omega

/-- C3 witness: the invariant instantiated on a concrete generic
export and a concrete intersection export. -/
theorem C3_export_pair_invariant_witness :
    laneletOcc (mkGenericExport [((0 : ℝ), (0 : ℝ)), (5, 0)] (some "solid")
      (some "dashed") (some "solid") false
      [(((0 : ℝ), (1 : ℝ)), ((0 : ℝ), (-1 : ℝ))), ((5, 1), (5, -1))]).objects
      0 = 1 ∧
    pairOcc (intersectionExport "left" "yield" 1 0.07).laneletPairs 8 ≤ 1 :=
  ⟨((C3_export_pair_invariant.1 [((0 : ℝ), (0 : ℝ)), (5, 0)] (some "solid")
      (some "dashed") (some "solid") false
      [(((0 : ℝ), (1 : ℝ)), ((0 : ℝ), (-1 : ℝ))), ((5, 1), (5, -1))]).1
      (0, 1) (by simp [mkGenericExport])).1,
   (C3_export_pair_invariant.2.1 "left" "yield" 1 0.07).2 8⟩

/-! ### C10: the TrafficIsland end pose -/

/-- C10 counterexample: for `zebraLength = 0` the reported end pose
position DOES coincide with the last sampled centerline point, so the
non-coincidence stated for every TrafficIsland fails in that degenerate
case. -/
theorem C10_island_end_pose_counterexample :
    (tiGetPoints 0).getLast? = some (tiGetEnding 0).pos := by
  simp [tiGetPoints, tiGetEnding, tiLength]

/-- C10 (amended): for every TrafficIsland with nonzero zebra length,
the sampled centerline ends at
`x = 2*padding + 2*curve_area_length + zebraLength` while the reported
end pose lies exactly one additional `zebraLength` beyond it, with
heading 0 and curvature 0 — so end pose and last sample never
coincide. -/
theorem C10_island_end_pose_beyond_centerline (zL : ℝ) (h : zL ≠ 0) :
    (tiGetPoints zL).getLast? = some (2 * 0.2 + 2 * 0.8 + zL, 0) ∧
    (tiGetEnding zL).pos = (2 * 0.2 + 2 * 0.8 + zL + zL, 0) ∧
    (tiGetEnding zL).heading = 0 ∧
    (tiGetEnding zL).curvature = 0 ∧
    (tiGetEnding zL).pos ≠ (2 * 0.2 + 2 * 0.8 + zL, 0) := by
  refine ⟨?_, ?_, rfl, rfl, ?_⟩
  · simp only [tiGetPoints, List.getLast?, Option.some.injEq]
    norm_num [tiLength, tiPadding, tiCurveArea]
  · simp only [tiGetEnding]
    norm_num [tiLength, tiPadding, tiCurveArea]
  · intro heq
    have h1 := congrArg Prod.fst heq
    simp only [tiGetEnding, tiLength, tiPadding, tiCurveArea] at h1
    norm_num at h1
    exact h h1

/-- C10 witness: the amended statement at `zebraLength = 3` (centerline
ends at `x = 5`, end pose at `x = 8`). -/
theorem C10_island_end_pose_beyond_centerline_witness :
    (tiGetPoints 3).getLast? = some (2 * 0.2 + 2 * 0.8 + 3, 0) ∧
    (tiGetEnding 3).pos = (2 * 0.2 + 2 * 0.8 + 3 + 3, 0) ∧
    (tiGetEnding 3).heading = 0 ∧
    (tiGetEnding 3).curvature = 0 ∧
    (tiGetEnding 3).pos ≠ (2 * 0.2 + 2 * 0.8 + 3, 0) :=
  C10_island_end_pose_beyond_centerline 3 (by norm_num)

/-! ### C6: the unguarded junction root-finding -/

theorem ti_length_3 : tiLength 3 = 5 := by
  norm_num [tiLength, tiPadding, tiCurveArea]

theorem ti_principal_3 : tiPrincipal 3 = (1, 0) := by
  simp only [tiPrincipal, psub, ti_length_3]
  norm_num [pnormalize]
  rw [norm2_pair_zero_right]
  norm_num

theorem ti_orthogonal_3 : tiOrthogonal 3 = (0, 1) := by
  simp only [tiOrthogonal, ti_principal_3]
  norm_num [pnormalize]
  rw [norm2_pair_zero_left]
  norm_num

theorem ti_split_start_3 : tiSplitStart 3 = (0.2, 0) := by
  simp only [tiSplitStart, ti_principal_3]
  norm_num [padd, psmul, tiPadding]

theorem ti_zsrc_23 : tiZebraStartRightCenter 2 3 = (1, -1) := by
  simp only [tiZebraStartRightCenter, ti_principal_3, ti_orthogonal_3,
    ti_split_start_3]
  norm_num [padd, psub, psmul, tiCurveArea]

theorem ti_zslc_23 : tiZebraStartLeftCenter 2 3 = (1, 1) := by
  simp only [tiZebraStartLeftCenter, ti_principal_3, ti_orthogonal_3,
    ti_split_start_3]
  norm_num [padd, psub, psmul, tiCurveArea]

theorem deg27_pos : 0 < deg27 := by
  unfold deg27
  positivity

theorem deg27_lt_pi_div_three : deg27 < Real.pi / 3 := by
  unfold deg27
  nlinarith [Real.pi_pos]

theorem deg27_lt_pi_div_two : deg27 < Real.pi / 2 := by
  have := deg27_lt_pi_div_three
  have := Real.pi_pos
  nlinarith

theorem cos_deg27_gt_half : 1 / 2 < Real.cos deg27 := by
  have h := Real.cos_lt_cos_of_nonneg_of_le_pi deg27_pos.le
    (by nlinarith [Real.pi_pos] : Real.pi / 3 ≤ Real.pi) deg27_lt_pi_div_three
  rwa [Real.cos_pi_div_three] at h

theorem sin_deg27_lt : Real.sin deg27 < 0.4725 := by
  have h1 := Real.sin_lt deg27_pos
  have h2 : deg27 < 0.4725 := by
    unfold deg27
    nlinarith [Real.pi_lt_d2]
  linarith

theorem tan_deg27_pos : 0 < Real.tan deg27 :=
  Real.tan_pos_of_pos_of_lt_pi_div_two deg27_pos deg27_lt_pi_div_two

/-- The bracket-endpoint product of the very first starting-junction
sample line is strictly positive, i.e. the bracket `[0,1]` contains no
sign change. -/
theorem c6_bracket_pos :
    0 < (Real.cos deg27 - 0.8 * Real.sin deg27) * (2 * Real.cos deg27) := by
  have h1 := cos_deg27_gt_half
  have h2 := sin_deg27_lt
  nlinarith

theorem arange_cons (start stop step : ℝ) (h : 0 < (stop - start) / step) :
    ∃ tl, arange start stop step = start :: tl := by
  obtain ⟨n, hn⟩ :=
    Nat.exists_eq_succ_of_ne_zero (Nat.pos_iff_ne_zero.mp (Nat.ceil_pos.mpr h))
  refine ⟨(List.range n).map fun i => start + ((i + 1 : ℕ) : ℝ) * step, ?_⟩
  unfold arange
  rw [hn, List.range_succ_eq_map, List.map_cons, List.map_map]
  congr 1
  simp

theorem tiStartLoopY_error (lp0 lp1 lp2 lp3 A : Pt) (xrc y : ℝ) (tl : List ℝ)
    (h : 0 < bezLineF lp0 lp1 lp2 lp3 A (xrc * A.1 + y * A.2) 0 *
      bezLineF lp0 lp1 lp2 lp3 A (xrc * A.1 + y * A.2) 1) :
    tiStartLoopY lp0 lp1 lp2 lp3 A xrc (y :: tl) = .error () := by
  simp only [tiStartLoopY, brentq, if_pos h]

/-- C6: evaluating the export at the failing input.  For
`TrafficIsland(islandWidth=2, zebraLength=3, signDistance=1,
zebraMarkingType="zebra")` with road half-width 1, the very first
starting-junction sample line (at `y = -islandWidth/2`) has
`f(0) > 0` and `f(1) > 0` on the left-center Bézier curve — no root in
the bracket `[0,1]` — and the UNGUARDED `root_scalar` call raises a
`ValueError` that propagates out of `export` instead of skipping the
sample. -/
theorem C6_island_unguarded_root_find_crash :
    trafficIslandExport 2 3 1 "zebra" 1 = .error () := by
  have hP := ti_principal_3
  have hsp := ti_split_start_3
  have hzsrc := ti_zsrc_23
  have hzslc := ti_zslc_23
  have hpos : 0 < bezLineF (tiSplitStart 3)
      (padd (tiSplitStart 3) (psmul 0.2 (tiPrincipal 3)))
      (psub (tiZebraStartLeftCenter 2 3) (psmul 0.2 (tiPrincipal 3)))
      (tiZebraStartLeftCenter 2 3) tiStartA
      ((tiZebraStartRightCenter 2 3).1 * tiStartA.1 +
        (tiZebraStartRightCenter 2 3).2 * tiStartA.2) 0 *
      bezLineF (tiSplitStart 3)
      (padd (tiSplitStart 3) (psmul 0.2 (tiPrincipal 3)))
      (psub (tiZebraStartLeftCenter 2 3) (psmul 0.2 (tiPrincipal 3)))
      (tiZebraStartLeftCenter 2 3) tiStartA
      ((tiZebraStartRightCenter 2 3).1 * tiStartA.1 +
        (tiZebraStartRightCenter 2 3).2 * tiStartA.2) 1 := by
    rw [hP, hsp, hzsrc, hzslc]
    simp only [bezLineF, pdot, padd, psub, psmul, tiStartA]
    norm_num
    nlinarith [cos_deg27_gt_half, sin_deg27_lt]
  have hstep : 0 < ((tiZebraStartLeftCenter 2 3).2 -
      (tiZebraStartRightCenter 2 3).2) / (0.15 * Real.tan deg27) := by
    rw [hzsrc, hzslc]
    have h := tan_deg27_pos
    have h2 : (0 : ℝ) < 0.15 * Real.tan deg27 := by nlinarith
    exact div_pos (by norm_num) h2
  obtain ⟨tl, htl⟩ := arange_cons ((tiZebraStartRightCenter 2 3).2)
    ((tiZebraStartLeftCenter 2 3).2) (0.15 * Real.tan deg27) hstep
  have hloop : tiStartLoopY (tiSplitStart 3)
      (padd (tiSplitStart 3) (psmul 0.2 (tiPrincipal 3)))
      (psub (tiZebraStartLeftCenter 2 3) (psmul 0.2 (tiPrincipal 3)))
      (tiZebraStartLeftCenter 2 3) tiStartA (tiZebraStartRightCenter 2 3).1
      (arange (tiZebraStartRightCenter 2 3).2 (tiZebraStartLeftCenter 2 3).2
        (0.15 * Real.tan deg27)) = .error () := by
    rw [htl]
    exact tiStartLoopY_error _ _ _ _ _ _ _ _ hpos
  simp only [trafficIslandExport, tiJunctionPoints, hloop]

/-- C9 witness: the identity transform law at a concrete child (the
straight-line bundle with an anchor at the origin). -/
theorem C9_identity_transform_law_witness :
    transrotGetPoints 0 (0, 0) (0, 0) [((0 : ℝ), (0 : ℝ)), (5, 0)] =
      [((0 : ℝ), (0 : ℝ)), (5, 0)] ∧
    transrotExport 0 (0, 0) (0, 0) straight5Bundle = straight5Bundle :=
  have h := C9_identity_transform_law (0, 0) [((0 : ℝ), (0 : ℝ)), (5, 0)]
    ⟨(0, 0), Real.pi, 0⟩ ⟨(5, 0), 0, 0⟩ straight5Bundle
  ⟨h.1, h.2.2.2⟩
